import Mathlib

/-!
Shallow embedding of the policy-SQL engine (violation checker, role
extractor and rewrite engine of `src/types.py`, `src/violation_checker.py`,
`src/role_extractor.py`, `src/rewriter.py`), together with theorems that
settle the specification claims against the code.
-/

set_option maxHeartbeats 1000000

namespace PolicySql

/-- Embedding of `PolicyType` from `src/types.py`: the four per-column access policies. -/
inductive PolicyType where
  | Public
  | JoinOnly
  | AggOnly
  | Hidden
deriving DecidableEq, Repr

/-- Embedding of `RoleType` from `src/types.py`: the syntactic role of one column occurrence. -/
inductive RoleType where
  | SelectExpr
  | JoinCond
  | WherePred
  | AggArg
deriving DecidableEq, Repr

/-- The Python value of a `PolicyType` literal is its name as a string
(used by f-string interpolation in refusal reasons). -/
def PolicyType.str : PolicyType → String
  | .Public => "Public"
  | .JoinOnly => "JoinOnly"
  | .AggOnly => "AggOnly"
  | .Hidden => "Hidden"

/-- The Python value of a `RoleType` literal is its name as a string. -/
def RoleType.str : RoleType → String
  | .SelectExpr => "SelectExpr"
  | .JoinCond => "JoinCond"
  | .WherePred => "WherePred"
  | .AggArg => "AggArg"

/-- Embedding of `ColumnRef` from `src/types.py`: one extracted column occurrence.
`agg_id`: 0=none, 1=max, 2=min, 3=count, 4=sum, 5=avg. -/
structure ColumnRef where
  table : String
  column : String
  role : RoleType
  agg_id : Nat
deriving DecidableEq, Repr

/-- Embedding of `Violation` from `src/types.py`: a disallowed column occurrence.
`column` is in `"table.column"` format. -/
structure Violation where
  column : String
  role : RoleType
  policy : PolicyType
  agg_id : Nat
deriving DecidableEq, Repr

/-- Embedding of `TableSchema` from `src/types.py`.  `column_names` pairs an owning-table
index (−1 for the `*` pseudo column) with a column name; `primary_keys` lists
global column ids. -/
structure TableSchema where
  db_id : String
  table_names : List String
  column_names : List (Int × String)
  column_types : List String
  primary_keys : List Nat
  foreign_keys : List (Nat × Nat)
deriving DecidableEq, Repr

/-- A Python `dict[str, PolicyType]` policy map, embedded as an association
list (first binding wins, as in `dict.get`). -/
def Policies := List (String × PolicyType)

/-- Character and pattern constants (so literals appear only after `:=`). -/
def blankChar : Char := ' '

/-- Placeholder character distinct from `(` and `)`. -/
def qmChar : Char := '?'

/-- The dot character. -/
def dotChar : Char := '.'

/-- Separator for `"table.column"` keys, Python `"."`. -/
def dotSep : String := "."

/-- Lowercase pattern for the word `SELECT`. -/
def select_pat : List Char := "select".data

/-- Lowercase pattern for the word `FROM`. -/
def from_pat : List Char := "from".data

/-- Replacement text opening `AVG(`. -/
def avg_open_pat : List Char := "AVG(".data

/-- The empty string. -/
def emptyStr : String := ""

/-- The wildcard column name. -/
def starStr : String := "*"

/-- Pattern `^id$` as a whole-string test. -/
def pat_id_exact : String := "id"

/-- Pattern `_id$` as a suffix test. -/
def pat_id_suffix : String := "_id"

/-- Pattern `^id_` as a start test. -/
def pat_id_start : String := "id_"

/-- Pattern `_code$` as a suffix test. -/
def pat_code_suffix : String := "_code"

/-- Pattern `^stuid$` as a whole-string test. -/
def pat_stuid_exact : String := "stuid"

/-- Embedding of `PERMISSION_TABLE` from `src/violation_checker.py` lines 6–31:
the base Policy × Role permission matrix. -/
def PERMISSION_TABLE : PolicyType → RoleType → Bool
  | .Public, .SelectExpr => true
  | .Public, .JoinCond => true
  | .Public, .WherePred => true
  | .Public, .AggArg => true
  | .JoinOnly, .SelectExpr => false
  | .JoinOnly, .JoinCond => true
  | .JoinOnly, .WherePred => true
  | .JoinOnly, .AggArg => false
  | .AggOnly, .SelectExpr => false
  | .AggOnly, .JoinCond => false
  | .AggOnly, .WherePred => false
  | .AggOnly, .AggArg => true
  | .Hidden, .SelectExpr => false
  | .Hidden, .JoinCond => false
  | .Hidden, .WherePred => false
  | .Hidden, .AggArg => false

/-- Embedding of `AGGONLY_ALLOWED_AGGS` from `src/violation_checker.py` line 34:
agg ids allowed for AggOnly columns (3 = count, 5 = avg). -/
def AGGONLY_ALLOWED_AGGS : List Nat := [3, 5]

/-- Embedding of `is_allowed` from `src/violation_checker.py` lines 37–48. -/
def is_allowed (policy : PolicyType) (role : RoleType) (agg_id : Nat) : Bool :=
  if !(PERMISSION_TABLE policy role) then
    false
  else if policy = .AggOnly ∧ role = .AggArg ∧ agg_id ∉ AGGONLY_ALLOWED_AGGS then
    false
  else
    true

/-- Key lookup in a policy map: Python `policies.get(key, default)`. -/
def Policies.get (policies : Policies) (key : String) : Option PolicyType :=
  List.lookup key policies

/-- Embedding of `check_violations` from `src/violation_checker.py` lines 51–71:
appends one `Violation` for every reference whose resolved policy denies
its role/aggregate; a missing policy-map entry resolves to `Public`. -/
def check_violations : List ColumnRef → Policies → List Violation
  | [], _ => []
  | ref :: rest, policies =>
    let col_key := ref.table ++ dotSep ++ ref.column
    let policy := (policies.get col_key).getD .Public
    (if is_allowed policy ref.role ref.agg_id then
      []
    else
      [⟨col_key, ref.role, policy, ref.agg_id⟩]) ++ check_violations rest policies

/-- A Spider column unit `[agg_id, col_id, isDistinct]`
(`src/role_extractor.py`, see `_extract_from_val_unit`). -/
structure ColUnit where
  agg_id : Nat
  col_id : Nat
  isDistinct : Bool
deriving DecidableEq, Repr

/-- A Spider value unit `[unit_op, col_unit1, col_unit2]`. -/
structure ValUnit where
  unit_op : Nat
  col_unit1 : Option ColUnit
  col_unit2 : Option ColUnit
deriving DecidableEq, Repr

mutual

/-- A Spider query AST node (`sql` dict of `src/role_extractor.py`):
SELECT clause (distinct flag + (agg_id, val_unit) items), FROM clause
(table units + join conds), WHERE conds, and optional set-operation
branches. -/
inductive SqlAst where
  | mk (select_distinct : Bool) (select_items : List (Nat × ValUnit))
      (from_table_units : List TableUnit) (from_conds : List CondItem)
      (where_conds : List CondItem)
      (intersect : Option SqlAst) (union : Option SqlAst) (except : Option SqlAst)

/-- A FROM-clause unit: a base table or a subquery (`table_unit[0] == "sql"`). -/
inductive TableUnit where
  | table (id : Nat)
  | sub (q : SqlAst)

/-- A condition's right-hand operand `val1`/`val2`: null, a column unit
triple, or a nested query. -/
inductive CondVal where
  | null
  | col (cu : ColUnit)
  | sub (q : SqlAst)

/-- One entry of a condition list: an `"and"`/`"or"` connector string, or a
condition tuple `[not_op, op_id, val_unit, val1, val2]`. -/
inductive CondItem where
  | conn
  | cond (not_op : Bool) (op_id : Nat) (vu : ValUnit) (val1 : CondVal) (val2 : CondVal)

end

/-- Embedding of `_resolve_col_id` from `src/role_extractor.py` lines 143–154. -/
def resolve_col_id (schema : TableSchema) (col_id : Nat) : String × String :=
  if col_id = 0 then (emptyStr, starStr)
  else if col_id ≥ schema.column_names.length then (emptyStr, emptyStr)
  else
    let entry := schema.column_names.getD col_id (-1, emptyStr)
    if entry.1 < 0 then (emptyStr, entry.2)
    else (schema.table_names.getD entry.1.toNat emptyStr, entry.2)

/-- One iteration of the `for col_unit in [col_unit1, col_unit2]` loop of
`_extract_from_val_unit` (`src/role_extractor.py` lines 57–78): SELECT-clause
extraction from a single (possibly absent) column unit. -/
def extract_select_col_unit (cu : Option ColUnit) (schema : TableSchema)
    (outer_agg_id : Nat) : List ColumnRef :=
  match cu with
  | none => []
  | some cu =>
    if cu.col_id = 0 then []
    else
      let effective_agg := if cu.agg_id ≠ 0 then cu.agg_id else outer_agg_id
      let role : RoleType := if effective_agg ≠ 0 then .AggArg else .SelectExpr
      let tc := resolve_col_id schema cu.col_id
      if tc.1 ≠ emptyStr then [⟨tc.1, tc.2, role, effective_agg⟩] else []

/-- Embedding of `_extract_from_val_unit` from `src/role_extractor.py` lines 49–80. -/
def extract_from_val_unit (vu : ValUnit) (schema : TableSchema)
    (outer_agg_id : Nat) : List ColumnRef :=
  extract_select_col_unit vu.col_unit1 schema outer_agg_id
    ++ extract_select_col_unit vu.col_unit2 schema outer_agg_id

/-- Embedding of `_extract_from_select` from `src/role_extractor.py` lines 36–46. -/
def extract_from_select (items : List (Nat × ValUnit)) (schema : TableSchema) :
    List ColumnRef :=
  match items with
  | [] => []
  | (agg_id, vu) :: rest =>
    extract_from_val_unit vu schema agg_id ++ extract_from_select rest schema

/-- One iteration of the `for col_unit in [col_unit1, col_unit2]` loop of
`_extract_cols_from_val_unit` (`src/role_extractor.py` lines 127–138):
condition-side extraction from one column unit with a caller-given role. -/
def extract_cond_col_unit (cu : Option ColUnit) (schema : TableSchema)
    (role : RoleType) : List ColumnRef :=
  match cu with
  | none => []
  | some cu =>
    if cu.col_id = 0 then []
    else
      let tc := resolve_col_id schema cu.col_id
      if tc.1 ≠ emptyStr then [⟨tc.1, tc.2, role, cu.agg_id⟩] else []

/-- Embedding of `_extract_cols_from_val_unit` from `src/role_extractor.py` lines 119–140. -/
def extract_cols_from_val_unit (vu : ValUnit) (schema : TableSchema)
    (role : RoleType) : List ColumnRef :=
  extract_cond_col_unit vu.col_unit1 schema role
    ++ extract_cond_col_unit vu.col_unit2 schema role

mutual

/-- Embedding of `extract_roles` from `src/role_extractor.py` lines 8–33: all column
references of a query with their roles, in extraction order (SELECT, JOIN
conds, WHERE, FROM subqueries, set-operation branches). -/
def extract_roles : SqlAst → TableSchema → List ColumnRef
  | .mk _ items tus fconds wconds io uo eo, schema =>
    extract_from_select items schema
      ++ (if fconds.isEmpty then [] else extract_from_conds fconds schema .JoinCond)
      ++ (if wconds.isEmpty then [] else extract_from_conds wconds schema .WherePred)
      ++ extract_table_units tus schema
      ++ extract_opt_sql io schema ++ extract_opt_sql uo schema ++ extract_opt_sql eo schema

/-- The `for table_unit in sql["from"]["table_units"]` loop of
`extract_roles`: recurse into subquery table units. -/
def extract_table_units : List TableUnit → TableSchema → List ColumnRef
  | [], _ => []
  | .table _ :: rest, schema => extract_table_units rest schema
  | .sub q :: rest, schema => extract_roles q schema ++ extract_table_units rest schema

/-- The `for op in ["intersect", "union", "except"]` loop body of
`extract_roles`: recurse into a present set-operation branch. -/
def extract_opt_sql : Option SqlAst → TableSchema → List ColumnRef
  | none, _ => []
  | some q, schema => extract_roles q schema

/-- Embedding of `_extract_from_conds` from `src/role_extractor.py` lines 83–116. -/
def extract_from_conds : List CondItem → TableSchema → RoleType → List ColumnRef
  | [], _, _ => []
  | .conn :: rest, schema, role => extract_from_conds rest schema role
  | .cond _ _ vu v1 v2 :: rest, schema, role =>
    extract_cols_from_val_unit vu schema role
      ++ extract_cond_val v1 schema role ++ extract_cond_val v2 schema role
      ++ extract_from_conds rest schema role

/-- The `for val in [val1, val2]` loop body of `_extract_from_conds`
(`src/role_extractor.py` lines 101–114): a right-hand operand is skipped when
null, recursed into when a subquery, and extracted as a column reference
(wildcard skipped, unresolvable dropped) when a column unit. -/
def extract_cond_val : CondVal → TableSchema → RoleType → List ColumnRef
  | .null, _, _ => []
  | .sub q, schema, _ => extract_roles q schema
  | .col cu, schema, role =>
    if cu.col_id ≠ 0 then
      let tc := resolve_col_id schema cu.col_id
      if tc.1 ≠ emptyStr then [⟨tc.1, tc.2, role, cu.agg_id⟩] else []
    else []

end

/-- The per-item `SELECT *` test inside `has_select_star`
(`src/role_extractor.py` lines 161–169): outer aggregate none, first column
unit present with aggregate none and the wildcard index. -/
def star_item (item : Nat × ValUnit) : Bool :=
  match item.2.col_unit1 with
  | none => false
  | some cu => cu.col_id = 0 && cu.agg_id = 0 && item.1 = 0

mutual

/-- Embedding of `has_select_star` from `src/role_extractor.py` lines 157–182. -/
def has_select_star : SqlAst → Bool
  | .mk _ items tus _ _ io uo eo =>
    items.any star_item || star_table_units tus
      || star_opt io || star_opt uo || star_opt eo

/-- The FROM-subquery loop of `has_select_star`. -/
def star_table_units : List TableUnit → Bool
  | [] => false
  | .table _ :: rest => star_table_units rest
  | .sub q :: rest => has_select_star q || star_table_units rest

/-- The set-operation loop body of `has_select_star`. -/
def star_opt : Option SqlAst → Bool
  | none => false
  | some q => has_select_star q

end

/-- Lowercased character data of a string (Python `str.lower()`, modelled
for the ASCII inputs at hand). -/
def lowerData (s : String) : List Char := s.data.map Char.toLower

/-- Suffix test on character lists (regex `pat$` ≡ `str.endswith`). -/
def ends_with_chars (s suf : List Char) : Bool :=
  decide (suf.length ≤ s.length) && decide (s.drop (s.length - suf.length) = suf)

/-- Start test on character lists (regex `^pat` ≡ `str.startswith`). -/
def starts_with_chars (s pre : List Char) : Bool :=
  decide (s.take pre.length = pre)

/-- Stable insertion of `a` before the first element `b` with `le a b`. -/
def stable_insert (le : α → α → Bool) (a : α) : List α → List α
  | [] => [a]
  | b :: l => if le a b then a :: b :: l else b :: stable_insert le a l

/-- Stable sort by repeated insertion.  Models Python's `list.sort`, which is
stable: for a total transitive comparison the stable result is unique, so
any stable sort computes the same list. -/
def stable_sort (le : α → α → Bool) : List α → List α
  | [] => []
  | a :: l => stable_insert le a (stable_sort le l)

/-! String machinery: executable models of the specific regular expressions
used by `src/rewriter.py` (`\b` word boundaries, case-insensitive matching,
`re.sub` left-to-right non-overlapping scanning).  Python `\w` is modelled as
ASCII `[A-Za-z0-9_]`; regex `^`/`$` anchors as string start/end. -/

/-- Regex `\w`: a word character. -/
def isWordChar (c : Char) : Bool := c.isAlphanum || c = '_'

/-- Case-insensitive literal match of `pat` (given lowercase) at index `i`. -/
def matchesAt (cs : List Char) (i : Nat) (pat : List Char) : Bool :=
  ((cs.drop i).take pat.length).map Char.toLower = pat

/-- Regex `\b` immediately before index `i` (next char is a word char). -/
def boundaryBefore (cs : List Char) (i : Nat) : Bool :=
  i = 0 || !isWordChar (cs.getD (i - 1) blankChar)

/-- Regex `\b` immediately after a word char, at index `i`. -/
def boundaryAfter (cs : List Char) (i : Nat) : Bool :=
  i ≥ cs.length || !isWordChar (cs.getD i blankChar)

/-- Test of `\bpat\b` (case-insensitive) matching at index `i`. -/
def wordAt (cs : List Char) (i : Nat) (pat : List Char) : Bool :=
  boundaryBefore cs i && matchesAt cs i pat && boundaryAfter cs (i + pat.length)

/-- First index `≥ start` satisfying `p`, probing at most `fuel` indices. -/
def findIdxFrom (p : Nat → Bool) : Nat → Nat → Option Nat
  | _, 0 => none
  | start, fuel + 1 => if p start then some start else findIdxFrom p (start + 1) fuel

/-- First non-whitespace index `≥ i` (regex `\s*` skipping). -/
def skipWsAux (cs : List Char) : Nat → Nat → Nat
  | i, 0 => i
  | i, fuel + 1 =>
    if i < cs.length ∧ (cs.getD i blankChar).isWhitespace then skipWsAux cs (i + 1) fuel else i

/-- Skip whitespace in `cs` starting at `i`. -/
def skipWs (cs : List Char) (i : Nat) : Nat := skipWsAux cs i cs.length

/-- Model of `re.search(r"\bSELECT\b(.+?)\bFROM\b", query, I|DOTALL)` from
`_wrap_with_avg` (`src/rewriter.py` line 163): the leftmost word `SELECT`
followed (non-adjacently) by a word `FROM`; returns the span
`(start(1), end(1))` of the lazy group, i.e. (end of `SELECT`, start of
`FROM`). -/
def select_from_match (cs : List Char) : Option (Nat × Nat) :=
  let fromAfter := fun i => findIdxFrom (fun j => wordAt cs j from_pat) i (cs.length + 1)
  match findIdxFrom (fun i => wordAt cs i select_pat && (fromAfter (i + 7)).isSome)
      0 (cs.length + 1) with
  | none => none
  | some i =>
    match fromAfter (i + 7) with
    | none => none
    | some j => some (i + 6, j)

/-- The aggregate-name alternation `(AVG|COUNT|SUM|MAX|MIN)` of the
already-aggregated check (`src/rewriter.py` line 171), lowercase. -/
def agg_names : List (List Char) := ["avg".data, "count".data, "sum".data, "max".data, "min".data]

/-- One anchored attempt of regex
`\b(AVG|COUNT|SUM|MAX|MIN)\s*\([^)]*\bcol\b[^)]*\)` at index `i`:
an aggregate name at a word boundary, optional spaces, `(`, then a
word-bounded `col` strictly before the first following `)`. -/
def agg_match_at (cs : List Char) (col : List Char) (i : Nat) : Bool :=
  boundaryBefore cs i &&
  agg_names.any (fun name =>
    matchesAt cs i name &&
    (let p := skipWs cs (i + name.length)
     decide (cs.getD p qmChar = '(') &&
     (match findIdxFrom (fun j => decide (cs.getD j qmChar = ')')) (p + 1) cs.length with
      | none => false
      | some q =>
        (findIdxFrom (fun k => wordAt cs k col && decide (k + col.length ≤ q))
          (p + 1) (q - p)).isSome)))

/-- Model of `re.search(agg_pattern, select_part, I)` of `_wrap_with_avg`
(`src/rewriter.py` lines 171–172): does `col` already occur inside an
aggregate call? -/
def agg_search (cs : List Char) (col : List Char) : Bool :=
  (findIdxFrom (agg_match_at cs col) 0 (cs.length + 1)).isSome

/-- Length of the maximal `\w+` run starting at `i`. -/
def wordRunLenAux (cs : List Char) : Nat → Nat → Nat
  | _, 0 => 0
  | i, fuel + 1 =>
    if i < cs.length ∧ isWordChar (cs.getD i blankChar) then wordRunLenAux cs (i + 1) fuel + 1 else 0

/-- Length of the maximal `\w+` run starting at `i`. -/
def wordRunLen (cs : List Char) (i : Nat) : Nat := wordRunLenAux cs i cs.length

/-- One anchored attempt of regex `(\b(?:\w+\.)?)(col)\b` at index `i`
(`src/rewriter.py` line 177): returns the captured prefix (a word run plus
dot, or empty) and the total match length. -/
def avg_sub_match (cs col : List Char) (i : Nat) : Option (List Char × Nat) :=
  if !boundaryBefore cs i then none
  else
    let w := wordRunLen cs i
    if w ≠ 0 && decide (cs.getD (i + w) blankChar = dotChar) && matchesAt cs (i + w + 1) col
        && boundaryAfter cs (i + w + 1 + col.length) then
      some ((cs.drop i).take (w + 1), w + 1 + col.length)
    else if matchesAt cs i col && boundaryAfter cs (i + col.length) then
      some ([], col.length)
    else none

/-- The `re.sub(pattern, replacer, select_part, I)` scan of `_wrap_with_avg`
(`src/rewriter.py` lines 177–183): each match is replaced with
`AVG(prefix + col_name)`, where `col_name` keeps the caller's spelling. -/
def avg_sub_aux (cs col colOrig : List Char) : Nat → Nat → List Char
  | i, 0 => cs.drop i
  | i, fuel + 1 =>
    if i ≥ cs.length then []
    else
      match avg_sub_match cs col i with
      | some (pre, total) =>
        if total = 0 then cs.getD i blankChar :: avg_sub_aux cs col colOrig (i + 1) fuel
        else (avg_open_pat ++ pre ++ colOrig ++ [')']) ++ avg_sub_aux cs col colOrig (i + total) fuel
      | none => cs.getD i blankChar :: avg_sub_aux cs col colOrig (i + 1) fuel

/-- Apply the AVG-wrapping substitution to a whole character list. -/
def avg_sub (cs colOrig : List Char) : List Char :=
  avg_sub_aux cs (colOrig.map Char.toLower) colOrig 0 cs.length

/-- The `re.sub(rf"\b{old}\b", new, query, I)` scan of `_replace_column`
(`src/rewriter.py` lines 153–154). -/
def word_sub_aux (cs old new : List Char) : Nat → Nat → List Char
  | i, 0 => cs.drop i
  | i, fuel + 1 =>
    if i ≥ cs.length then []
    else if wordAt cs i old && old.length ≠ 0 then
      new ++ word_sub_aux cs old new (i + old.length) fuel
    else cs.getD i blankChar :: word_sub_aux cs old new (i + 1) fuel

/-- Whole-word case-insensitive replacement over a character list. -/
def word_sub (cs old new : List Char) : List Char :=
  word_sub_aux cs (old.map Char.toLower) new 0 cs.length

/-- Accumulating scan for `lastPart`: the current segment restarts at every
dot. -/
def lastPartAux (cur : List Char) : List Char → List Char
  | [] => cur.reverse
  | c :: rest => if c = dotChar then lastPartAux [] rest else lastPartAux (c :: cur) rest

/-- Python `s.split(".")[-1]` (the text after the last dot). -/
def lastPart (s : String) : String := ⟨lastPartAux [] s.data⟩

/-- Scan for `firstPart`: characters before the first dot. -/
def firstPartAux : List Char → List Char
  | [] => []
  | c :: rest => if c = dotChar then [] else c :: firstPartAux rest

/-- Python `s.split(".")[0]` (the text before the first dot). -/
def firstPart (s : String) : String := ⟨firstPartAux s.data⟩

/-- Embedding of `RewriteResult` from `src/rewriter.py` lines 9–15: the two shapes the
code constructs, `RewriteResult(True, sql=...)` and
`RewriteResult(False, reason=...)`. -/
inductive RewriteResult where
  | success (sql : String)
  | refused (reason : String)
deriving DecidableEq, Repr

/-- Embedding of `_replace_column` from `src/rewriter.py` lines 147–154. -/
def replace_column (query : String) (old_col new_col : String) : String :=
  let old_name := lastPart old_col
  let new_name := lastPart new_col
  ⟨word_sub query.data old_name.data new_name.data⟩

/-- Embedding of `_wrap_with_avg` from `src/rewriter.py` lines 157–188. -/
def wrap_with_avg (query : String) (col_name : String) : String :=
  let cs := query.data
  match select_from_match cs with
  | none => query
  | some (s, e) =>
    let select_part := (cs.drop s).take (e - s)
    if agg_search select_part (col_name.data.map Char.toLower) then query
    else
      let new_select := avg_sub select_part col_name.data
      if new_select = select_part then query
      else ⟨cs.take s ++ new_select ++ cs.drop e⟩

/-- Helper naming the already-aggregated condition of `_wrap_with_avg`
(`src/rewriter.py` lines 163–173): the query has a SELECT…FROM span and
`col_name` occurs inside an aggregate call within it. -/
def already_aggregated_in_select (query : String) (col_name : String) : Bool :=
  match select_from_match query.data with
  | none => false
  | some (s, e) =>
    agg_search ((query.data.drop s).take (e - s)) (col_name.data.map Char.toLower)

/-- Embedding of `is_id_column` (with the `id_patterns` list) from `_find_id_column`
(`src/rewriter.py` lines 112–121); the anchored case-insensitive regexes
become string predicates on the lowercased name. -/
def is_id_column (name : String) : Bool :=
  let n := lowerData name
  decide (n = pat_id_exact.data) || ends_with_chars n pat_id_suffix.data
    || starts_with_chars n pat_id_start.data
    || ends_with_chars n pat_code_suffix.data
    || decide (n = pat_stuid_exact.data)

/-- The candidate-building `for col_id, (table_idx, col_name) in enumerate`
loop of `_find_id_column` (`src/rewriter.py` lines 124–137), in iteration
order: entries `(is_pk, col_id, full_name)`. -/
def find_id_candidates_aux (table_names : List String) (primary_keys : List Nat)
    (policies : Policies) (table_lower : List Char) :
    List (Int × String) → Nat → List (Bool × Nat × String)
  | [], _ => []
  | (table_idx, col_name) :: rest, col_id =>
    let tail := find_id_candidates_aux table_names primary_keys policies table_lower rest (col_id + 1)
    if col_id = 0 then tail
    else if table_idx < 0 then tail
    else if lowerData (table_names.getD table_idx.toNat emptyStr) ≠ table_lower then tail
    else
      let full_name := table_names.getD table_idx.toNat emptyStr ++ dotSep ++ col_name
      if is_id_column col_name && Policies.get policies full_name = some .Public then
        (decide (col_id ∈ primary_keys), col_id, full_name) :: tail
      else tail

/-- The full candidate list of `_find_id_column` for a violating column. -/
def find_id_candidates (column : String) (schema : TableSchema) (policies : Policies) :
    List (Bool × Nat × String) :=
  find_id_candidates_aux schema.table_names schema.primary_keys policies
    (lowerData (firstPart column)) schema.column_names 0

/-- The Python sort key `(not is_pk, col_id)` of `_find_id_column` line 143,
as a ≤ comparison (primary keys first, then ascending column id). -/
def cand_le (a b : Bool × Nat × String) : Bool :=
  decide ((a.1 = true ∧ b.1 = false)
    ∨ (a.1 = b.1 ∧ a.2.1 ≤ b.2.1))

/-- Embedding of `_find_id_column` from `src/rewriter.py` lines 99–144. -/
def find_id_column (column : String) (schema : TableSchema) (policies : Policies) :
    Option String :=
  let candidates := find_id_candidates column schema policies
  if candidates.isEmpty then none
  else
    match stable_sort cand_le candidates with
    | [] => none
    | c :: _ => some c.2.2

/-- Embedding of `_apply_rewrite_step` from `src/rewriter.py` lines 69–96: one pass over
the violations, threading the query text and collecting the violations left
unresolved, in order. -/
def apply_rewrite_step :
    String → List Violation → TableSchema → Policies → String × List Violation
  | query, [], _, _ => (query, [])
  | query, v :: rest, schema, policies =>
    if v.policy = PolicyType.Hidden then
      match find_id_column v.column schema policies with
      | some replacement =>
        apply_rewrite_step (replace_column query v.column replacement) rest schema policies
      | none =>
        let (q, rem) := apply_rewrite_step query rest schema policies
        (q, v :: rem)
    else if v.policy = PolicyType.AggOnly then
      let col_name := lastPart v.column
      let new_query := wrap_with_avg query col_name
      if new_query ≠ query then apply_rewrite_step new_query rest schema policies
      else
        let (q, rem) := apply_rewrite_step query rest schema policies
        (q, v :: rem)
    else
      apply_rewrite_step query rest schema policies

/-- The tier-1 predicate of `rewrite` (`src/rewriter.py` line 30):
WHERE/JOIN role with Hidden or AggOnly policy. -/
def tier_unsalvageable (v : Violation) : Bool :=
  decide ((v.role = RoleType.WherePred ∨ v.role = RoleType.JoinCond)
    ∧ (v.policy = PolicyType.Hidden ∨ v.policy = PolicyType.AggOnly))

/-- The tier-2 predicate of `rewrite` (`src/rewriter.py` line 35):
AggArg role, AggOnly policy, aggregate outside `(3, 5)`. -/
def tier_aggonly_bad_agg (v : Violation) : Bool :=
  decide (v.role = RoleType.AggArg ∧ v.policy = PolicyType.AggOnly
    ∧ ¬(v.agg_id = 3 ∨ v.agg_id = 5))

/-- The tier-3 predicate of `rewrite` (`src/rewriter.py` line 42):
AggArg role with Hidden or JoinOnly policy. -/
def tier_aggarg_forbidden (v : Violation) : Bool :=
  decide (v.role = RoleType.AggArg
    ∧ (v.policy = PolicyType.Hidden ∨ v.policy = PolicyType.JoinOnly))

/-- The tier-4 predicate of `rewrite` (`src/rewriter.py` line 47):
SelectExpr role with JoinOnly policy. -/
def tier_joinonly_select (v : Violation) : Bool :=
  decide (v.role = RoleType.SelectExpr ∧ v.policy = PolicyType.JoinOnly)

/-- Embedding of `rewrite` from `src/rewriter.py` lines 18–66.  The four scanning `for`
loops are `find?` on the tier predicates; the `for _ in range(2)` loop is
unrolled to its two iterations. -/
def rewrite (query : String) (violations : List Violation) (schema : TableSchema)
    (policies : Policies) : RewriteResult :=
  if violations.isEmpty then .success query
  else
    match violations.find? tier_unsalvageable with
    | some v => .refused (v.policy.str ++ " column in " ++ v.role.str ++ ": " ++ v.column)
    | none =>
    match violations.find? tier_aggonly_bad_agg with
    | some v => .refused ("AggOnly column with non-AVG/COUNT agg: " ++ v.column)
    | none =>
    match violations.find? tier_aggarg_forbidden with
    | some v => .refused (v.policy.str ++ " column in AggArg: " ++ v.column)
    | none =>
    match violations.find? tier_joinonly_select with
    | some v => .refused ("JoinOnly column in SelectExpr: " ++ v.column)
    | none =>
      let select_violations := violations.filter (fun v => decide (v.role = RoleType.SelectExpr))
      if select_violations.isEmpty then .success query
      else
        let p1 := apply_rewrite_step query select_violations schema policies
        if p1.2.isEmpty then .success p1.1
        else
          let p2 := apply_rewrite_step p1.1 p1.2 schema policies
          if p2.2.isEmpty then .success p2.1
          else .refused ("Rewrite limit exceeded")

/-! Specification-side definitions (written from the spec's words, for
refinement comparisons against the code-derived definitions above), and
concrete fixtures used by witnesses and counterexamples. -/

/-- Specification-side base permission matrix (spec §4.2): Public allows all
four roles, JoinOnly only JoinCond and WherePred, AggOnly only AggArg,
Hidden none. -/
def spec_base_permission (p : PolicyType) (r : RoleType) : Bool :=
  match p with
  | .Public => true
  | .JoinOnly => decide (r = RoleType.JoinCond ∨ r = RoleType.WherePred)
  | .AggOnly => decide (r = RoleType.AggArg)
  | .Hidden => false

/-- Specification-side wording of the id-like naming patterns (spec §4.3 /
claim C7): exact `id`, suffix `_id`, start `id_`, suffix `_code`, exact
`stuid`, case-insensitive. -/
def IsIdLike (name : String) : Prop :=
  lowerData name = pat_id_exact.data
    ∨ ends_with_chars (lowerData name) pat_id_suffix.data = true
    ∨ starts_with_chars (lowerData name) pat_id_start.data = true
    ∨ ends_with_chars (lowerData name) pat_code_suffix.data = true
    ∨ lowerData name = pat_stuid_exact.data

/-- Specification-side wildcard-select predicate (spec §4.1): the query, or
one of its FROM-clause subqueries or set-operation branches (recursively),
has a SELECT item with outer aggregate none whose column unit is present
with aggregate none and the wildcard index. -/
inductive HasStarSelect : SqlAst → Prop where
  | here {d : Bool} {items : List (Nat × ValUnit)} {tus : List TableUnit}
      {fc wc : List CondItem} {qi qu qe : Option SqlAst}
      (item : Nat × ValUnit) (cu : ColUnit) :
      item ∈ items → item.1 = 0 → item.2.col_unit1 = some cu → cu.agg_id = 0 →
      cu.col_id = 0 → HasStarSelect (.mk d items tus fc wc qi qu qe)
  | from_sub {d : Bool} {items : List (Nat × ValUnit)} {tus : List TableUnit}
      {fc wc : List CondItem} {qi qu qe : Option SqlAst} (q : SqlAst) :
      TableUnit.sub q ∈ tus → HasStarSelect q →
      HasStarSelect (.mk d items tus fc wc qi qu qe)
  | in_intersect {d : Bool} {items : List (Nat × ValUnit)} {tus : List TableUnit}
      {fc wc : List CondItem} {qu qe : Option SqlAst} (q : SqlAst) :
      HasStarSelect q → HasStarSelect (.mk d items tus fc wc (some q) qu qe)
  | in_union {d : Bool} {items : List (Nat × ValUnit)} {tus : List TableUnit}
      {fc wc : List CondItem} {qi qe : Option SqlAst} (q : SqlAst) :
      HasStarSelect q → HasStarSelect (.mk d items tus fc wc qi (some q) qe)
  | in_except {d : Bool} {items : List (Nat × ValUnit)} {tus : List TableUnit}
      {fc wc : List CondItem} {qi qu : Option SqlAst} (q : SqlAst) :
      HasStarSelect q → HasStarSelect (.mk d items tus fc wc qi qu (some q))

/-- The reach condition of the unchanged-text Success branch of `rewrite`
for a non-empty violation list (`src/rewriter.py` lines 51–54): the list is
non-empty, no tier predicate fires, and no violation has role SelectExpr. -/
def reaches_trivial_success (vs : List Violation) : Bool :=
  !vs.isEmpty
    && (vs.find? tier_unsalvageable).isNone
    && (vs.find? tier_aggonly_bad_agg).isNone
    && (vs.find? tier_aggarg_forbidden).isNone
    && (vs.find? tier_joinonly_select).isNone
    && (vs.filter (fun v => decide (v.role = RoleType.SelectExpr))).isEmpty

/-- A trivial schema fixture for witnesses. -/
def emptySchema : TableSchema := ⟨"db", [], [], [], [], []⟩

/-- Fixture (spec §8 scenario): table `Student(id PK, name, email)`. -/
def studentSchema : TableSchema :=
  ⟨"school", ["Student"], [(-1, "*"), (0, "id"), (0, "name"), (0, "email")],
    [], [1], []⟩

/-- Fixture: `Student.email` is Hidden, every other column unmapped. -/
def hiddenOnlyPolicies : Policies := [("Student.email", PolicyType.Hidden)]

/-- Fixture: a table with a non-primary-key id-like column (`row_id`, column
id 1) and a primary-key id-like column (`id`, column id 2). -/
def twoIdSchema : TableSchema :=
  ⟨"db2", ["T"], [(-1, "*"), (0, "row_id"), (0, "id"), (0, "name")], [], [2], []⟩

/-- Fixture policies for `twoIdSchema`: both id-like columns Public, `name`
Hidden. -/
def twoIdPolicies : Policies :=
  [("T.row_id", PolicyType.Public), ("T.id", PolicyType.Public),
    ("T.name", PolicyType.Hidden)]

/-- Fixture: a SelectExpr violation on an AggOnly column. -/
def aggOnlySelectViolation : Violation :=
  ⟨"emp.salary", RoleType.SelectExpr, PolicyType.AggOnly, 0⟩

/-- Fixture query whose SELECT clause already aggregates `salary`. -/
def avgQuery : String := "SELECT AVG(salary) FROM emp"

/-- Fixture: a WHERE-predicate reference. -/
def wpRef : ColumnRef := ⟨"t", "c", RoleType.WherePred, 0⟩

/-- Fixture policies making `wpRef` violate. -/
def wpPolicies : Policies := [("t.c", PolicyType.Hidden)]

/-- Fixture: an unaggregated `SELECT *` query AST. -/
def starQuery : SqlAst :=
  .mk false [(0, ⟨0, some ⟨0, 0, false⟩, none⟩)] [] [] [] none none none

/-- Fixture query projecting the Hidden `email` column. -/
def emailQuery : String := "SELECT email FROM Student"

/-- Fixture: the SelectExpr violation on `Student.email` under
`hiddenOnlyPolicies`. -/
def hiddenEmailViolation : Violation :=
  ⟨"Student.email", RoleType.SelectExpr, PolicyType.Hidden, 0⟩

/-- Fixture key: the `Student.id` column key. -/
def studentIdKey : String := "Student.id"

/-- Fixture: the Hidden column of `twoIdSchema` to be replaced. -/
def tNameCol : String := "T.name"

/-- Fixture key: the `T.id` column key. -/
def tIdKey : String := "T.id"

/-- Fixture: a SelectExpr reference to the Hidden column `T.name`. -/
def tNameRef : ColumnRef := ⟨"T", "name", RoleType.SelectExpr, 0⟩

/-! Theorems. -/

/-- Public columns are always allowed, for every role and aggregate. -/
theorem is_allowed_public (r : RoleType) (a : Nat) :
    is_allowed PolicyType.Public r a = true := by
  cases r <;> simp [is_allowed, PERMISSION_TABLE]

/-- C5: `is_allowed` is a total function whose value agrees with the base
permission matrix of the spec (Public allows all four roles; JoinOnly only
JoinCond and WherePred; AggOnly only AggArg; Hidden none), except that the
(AggOnly, AggArg) cell is allowed exactly when the aggregate id is count (3)
or avg (5). -/
theorem C5_is_allowed_total_matrix (p : PolicyType) (r : RoleType) (agg : Nat) :
    is_allowed p r agg =
      if p = PolicyType.AggOnly ∧ r = RoleType.AggArg then decide (agg = 3 ∨ agg = 5)
      else spec_base_permission p r := by
  cases p <;> cases r <;>
    simp [is_allowed, PERMISSION_TABLE, spec_base_permission, AGGONLY_ALLOWED_AGGS]

/-- C6: with an empty violation list, `rewrite` returns Success carrying the
input text unchanged. -/
theorem C6_rewrite_empty_is_identity (query : String) (schema : TableSchema)
    (policies : Policies) :
    rewrite query [] schema policies = .success query := by
  simp [rewrite]

/-- C3: any violation with role WherePred or JoinCond and policy Hidden or
AggOnly in the list forces `rewrite` to return Refused, regardless of the
other violations, the query text, the schema and the policy map. -/
theorem C3_predicate_violation_refuses (query : String)
    (violations : List Violation) (schema : TableSchema) (policies : Policies)
    (v : Violation) (hv : v ∈ violations)
    (hrole : v.role = RoleType.WherePred ∨ v.role = RoleType.JoinCond)
    (hpol : v.policy = PolicyType.Hidden ∨ v.policy = PolicyType.AggOnly) :
    ∃ reason, rewrite query violations schema policies = .refused reason := by
  have hne : violations.isEmpty = false := by
    cases violations with
    | nil => cases hv
    | cons a l => rfl
  have hfind : (violations.find? tier_unsalvageable).isSome := by
    rw [List.find?_isSome]
    exact ⟨v, hv, by simp only [tier_unsalvageable, decide_eq_true_eq]; exact ⟨hrole, hpol⟩⟩
  obtain ⟨w, hw⟩ := Option.isSome_iff_exists.mp hfind
  exact ⟨w.policy.str ++ " column in " ++ w.role.str ++ ": " ++ w.column,
    by simp [rewrite, hne, hw]⟩

/-- Witness for C3 at a concrete input: a Hidden column in a WHERE
predicate. -/
theorem C3_predicate_violation_refuses_witness :
    (⟨"t.c", RoleType.WherePred, PolicyType.Hidden, 0⟩ : Violation) ∈
        [(⟨"t.c", RoleType.WherePred, PolicyType.Hidden, 0⟩ : Violation)]
    ∧ ∃ reason,
        rewrite emptyStr [⟨"t.c", RoleType.WherePred, PolicyType.Hidden, 0⟩]
          emptySchema [] = .refused reason :=
  ⟨List.mem_singleton.mpr rfl,
    C3_predicate_violation_refuses emptyStr _ emptySchema [] _
      (List.mem_singleton.mpr rfl) (Or.inl rfl) (Or.inl rfl)⟩

/-- C9: a column index that is out of range, or that maps to no owning
table, resolves to an empty table name, and the corresponding occurrence is
silently dropped in every extraction position (SELECT-clause column unit,
condition-side column unit, condition right-hand column operand). -/
theorem C9_unresolvable_index_dropped (schema : TableSchema) (cu : ColUnit)
    (outer_agg_id : Nat) (role : RoleType)
    (h : cu.col_id ≥ schema.column_names.length
      ∨ (schema.column_names.getD cu.col_id (-1, emptyStr)).1 < 0) :
    extract_select_col_unit (some cu) schema outer_agg_id = []
    ∧ extract_cond_col_unit (some cu) schema role = []
    ∧ extract_cond_val (.col cu) schema role = [] := by
  by_cases h0 : cu.col_id = 0
  · refine ⟨?_, ?_, ?_⟩ <;>
      simp [extract_select_col_unit, extract_cond_col_unit, extract_cond_val, h0]
  · have hres : (resolve_col_id schema cu.col_id).1 = emptyStr := by
      unfold resolve_col_id
      rcases h with h | h
      · simp [h0, h]
      · by_cases hge : cu.col_id ≥ schema.column_names.length
        · simp [h0, hge]
        · have h' : (schema.column_names[cu.col_id]?.getD (-1, emptyStr)).1 < 0 := by
            simpa [List.getD] using h
          simp [h0, hge, h']
    refine ⟨?_, ?_, ?_⟩ <;>
      simp [extract_select_col_unit, extract_cond_col_unit, extract_cond_val,
        h0, hres, emptyStr]

/-- Witness for C9: an out-of-range column index against the empty schema. -/
theorem C9_unresolvable_index_dropped_witness :
    ((5 : Nat) ≥ emptySchema.column_names.length
      ∨ (emptySchema.column_names.getD 5 (-1, emptyStr)).1 < 0)
    ∧ (extract_select_col_unit (some ⟨0, 5, false⟩) emptySchema 0 = []
        ∧ extract_cond_col_unit (some ⟨0, 5, false⟩) emptySchema RoleType.WherePred = []
        ∧ extract_cond_val (.col ⟨0, 5, false⟩) emptySchema RoleType.WherePred = []) :=
  ⟨Or.inl (by decide),
    C9_unresolvable_index_dropped emptySchema ⟨0, 5, false⟩ 0 RoleType.WherePred
      (Or.inl (by decide))⟩

/-- Every violation produced by `check_violations` is disallowed and carries
the policy found in the map at its own column key; in particular the key has
an explicit, non-Public entry (a missing entry resolves to Public, which
allows everything). -/
theorem check_violations_sound (refs : List ColumnRef) (policies : Policies) :
    ∀ v ∈ check_violations refs policies,
      is_allowed v.policy v.role v.agg_id = false
      ∧ Policies.get policies v.column = some v.policy
      ∧ v.policy ≠ PolicyType.Public := by
  induction refs with
  | nil => intro v hv; cases hv
  | cons ref rest ih =>
    intro v hv
    simp only [check_violations] at hv
    rcases List.mem_append.mp hv with h | h
    · by_cases hall :
        is_allowed ((policies.get (ref.table ++ dotSep ++ ref.column)).getD .Public)
          ref.role ref.agg_id
      · simp [hall] at h
      · rw [if_neg hall] at h
        rcases List.mem_singleton.mp h with rfl
        have hfalse : is_allowed
            ((policies.get (ref.table ++ dotSep ++ ref.column)).getD .Public)
            ref.role ref.agg_id = false := by
          exact Bool.eq_false_iff.mpr hall
        refine ⟨hfalse, ?_, ?_⟩
        · cases hget : policies.get (ref.table ++ dotSep ++ ref.column) with
          | none =>
            rw [hget] at hfalse
            simp [is_allowed_public] at hfalse
          | some p => simp [hget]
        · intro hp
          simp only at hp
          rw [hp] at hfalse
          simp [is_allowed_public] at hfalse
    · exact ih v h

/-- A denied WHERE/JOIN occurrence can only have policy Hidden or AggOnly
(Public and JoinOnly permit those roles). -/
theorem is_allowed_false_pred (p : PolicyType) (r : RoleType) (a : Nat)
    (hr : r = RoleType.WherePred ∨ r = RoleType.JoinCond)
    (h : is_allowed p r a = false) :
    p = PolicyType.Hidden ∨ p = PolicyType.AggOnly := by
  rcases hr with rfl | rfl <;> cases p <;>
    simp_all [is_allowed, PERMISSION_TABLE]

/-- A denied AggArg occurrence has policy Hidden or JoinOnly, or AggOnly
with an aggregate outside count/avg. -/
theorem is_allowed_false_aggarg (p : PolicyType) (a : Nat)
    (h : is_allowed p RoleType.AggArg a = false) :
    p = PolicyType.Hidden ∨ p = PolicyType.JoinOnly
      ∨ (p = PolicyType.AggOnly ∧ ¬(a = 3 ∨ a = 5)) := by
  cases p <;> simp_all [is_allowed, PERMISSION_TABLE, AGGONLY_ALLOWED_AGGS]

/-- C10: on checker output, every WHERE/JOIN violation has policy Hidden or
AggOnly and every AggArg violation has policy Hidden or JoinOnly, or AggOnly
with an aggregate outside count/avg; consequently the branch of `rewrite`
returning Success with the text unchanged despite a non-empty violation list
(`src/rewriter.py` lines 51–54, `reaches_trivial_success`) is unreachable. -/
theorem C10_checker_invariant_trivial_branch_unreachable
    (refs : List ColumnRef) (policies : Policies) :
    (∀ v ∈ check_violations refs policies,
      ((v.role = RoleType.WherePred ∨ v.role = RoleType.JoinCond) →
        (v.policy = PolicyType.Hidden ∨ v.policy = PolicyType.AggOnly))
      ∧ (v.role = RoleType.AggArg →
          (v.policy = PolicyType.Hidden ∨ v.policy = PolicyType.JoinOnly
            ∨ (v.policy = PolicyType.AggOnly ∧ ¬(v.agg_id = 3 ∨ v.agg_id = 5))))) ∧
    reaches_trivial_success (check_violations refs policies) = false := by
  have hinv : ∀ v ∈ check_violations refs policies,
      ((v.role = RoleType.WherePred ∨ v.role = RoleType.JoinCond) →
        (v.policy = PolicyType.Hidden ∨ v.policy = PolicyType.AggOnly))
      ∧ (v.role = RoleType.AggArg →
          (v.policy = PolicyType.Hidden ∨ v.policy = PolicyType.JoinOnly
            ∨ (v.policy = PolicyType.AggOnly ∧ ¬(v.agg_id = 3 ∨ v.agg_id = 5)))) := by
    intro v hv
    obtain ⟨hfalse, -, -⟩ := check_violations_sound refs policies v hv
    refine ⟨fun hr => ?_, fun hr => ?_⟩
    · exact is_allowed_false_pred v.policy v.role v.agg_id hr hfalse
    · rw [hr] at hfalse
      exact is_allowed_false_aggarg _ _ hfalse
  refine ⟨hinv, ?_⟩
  cases hx : reaches_trivial_success (check_violations refs policies) with
  | false => rfl
  | true =>
    exfalso
    unfold reaches_trivial_success at hx
    simp only [Bool.and_eq_true] at hx
    obtain ⟨⟨⟨⟨⟨hne, hf1⟩, hf2⟩, hf3⟩, hf4⟩, hfil⟩ := hx
    have hne' : check_violations refs policies ≠ [] := by
      intro hnil
      rw [hnil] at hne
      simp at hne
    obtain ⟨v, hv⟩ := List.exists_mem_of_ne_nil _ hne'
    have h1 := List.find?_eq_none.mp (Option.isNone_iff_eq_none.mp hf1) v hv
    have h2 := List.find?_eq_none.mp (Option.isNone_iff_eq_none.mp hf2) v hv
    have h3 := List.find?_eq_none.mp (Option.isNone_iff_eq_none.mp hf3) v hv
    have hsel : ¬(v.role = RoleType.SelectExpr) := by
      have := List.filter_eq_nil_iff.mp (List.isEmpty_iff.mp hfil) v hv
      simpa using this
    obtain ⟨hpred, hagg⟩ := hinv v hv
    cases hrole : v.role with
    | SelectExpr => exact hsel hrole
    | WherePred =>
      rcases hpred (Or.inl hrole) with hp | hp <;>
        · apply h1
          simp [tier_unsalvageable, hrole, hp]
    | JoinCond =>
      rcases hpred (Or.inr hrole) with hp | hp <;>
        · apply h1
          simp [tier_unsalvageable, hrole, hp]
    | AggArg =>
      rcases hagg hrole with hp | hp | ⟨hp, hagg5⟩
      · apply h3
        simp [tier_aggarg_forbidden, hrole, hp]
      · apply h3
        simp [tier_aggarg_forbidden, hrole, hp]
      · apply h2
        simp [tier_aggonly_bad_agg, hrole, hp, hagg5]

/-- Witness for C10: a Hidden column referenced in a WHERE predicate. -/
theorem C10_checker_invariant_trivial_branch_unreachable_witness :
    ((⟨"t.c", RoleType.WherePred, PolicyType.Hidden, 0⟩ : Violation)
        ∈ check_violations [wpRef] wpPolicies
      → ((⟨"t.c", RoleType.WherePred, PolicyType.Hidden, 0⟩ : Violation).policy
            = PolicyType.Hidden
          ∨ (⟨"t.c", RoleType.WherePred, PolicyType.Hidden, 0⟩ : Violation).policy
            = PolicyType.AggOnly))
    ∧ reaches_trivial_success (check_violations [wpRef] wpPolicies) = false :=
  ⟨fun hv =>
      ((C10_checker_invariant_trivial_branch_unreachable [wpRef] wpPolicies).1
        _ hv).1 (Or.inl rfl),
    (C10_checker_invariant_trivial_branch_unreachable [wpRef] wpPolicies).2⟩

/-- C4: when no tier fires and SelectExpr violations remain, `rewrite` runs
at most two passes of `apply_rewrite_step`: if the unresolved set is empty
after the first or the second pass the result is Success with the text as
mutated so far, and if it is still non-empty after the second pass the
result is Refused with reason exactly "Rewrite limit exceeded". -/
theorem C4_two_pass_bound (query : String) (violations : List Violation)
    (schema : TableSchema) (policies : Policies)
    (h1 : violations ≠ [])
    (h2 : violations.find? tier_unsalvageable = none)
    (h3 : violations.find? tier_aggonly_bad_agg = none)
    (h4 : violations.find? tier_aggarg_forbidden = none)
    (h5 : violations.find? tier_joinonly_select = none)
    (h6 : violations.filter (fun v => decide (v.role = RoleType.SelectExpr)) ≠ []) :
    (let p1 := apply_rewrite_step query
        (violations.filter (fun v => decide (v.role = RoleType.SelectExpr)))
        schema policies
     let p2 := apply_rewrite_step p1.1 p1.2 schema policies
     (p1.2 = [] → rewrite query violations schema policies = .success p1.1)
     ∧ (p1.2 ≠ [] → p2.2 = [] →
         rewrite query violations schema policies = .success p2.1)
     ∧ (p1.2 ≠ [] → p2.2 ≠ [] →
         rewrite query violations schema policies
           = .refused ("Rewrite limit exceeded"))) := by
  have hne : violations.isEmpty = false := by
    cases violations with
    | nil => exact absurd rfl h1
    | cons a l => rfl
  have hfe : (violations.filter
      (fun v => decide (v.role = RoleType.SelectExpr))).isEmpty = false := by
    cases hev : violations.filter (fun v => decide (v.role = RoleType.SelectExpr)) with
    | nil => exact absurd hev h6
    | cons a l => rfl
  refine ⟨fun he1 => ?_, fun hn1 he2 => ?_, fun hn1 hn2 => ?_⟩
  · simp only [rewrite, hne, h2, h3, h4, h5, hfe, Bool.false_eq_true, if_false]
    simp [he1]
  · simp only [rewrite, hne, h2, h3, h4, h5, hfe, Bool.false_eq_true, if_false]
    have hn1e : (apply_rewrite_step query
        (violations.filter (fun v => decide (v.role = RoleType.SelectExpr)))
        schema policies).2.isEmpty = false := by
      cases hev : (apply_rewrite_step query
          (violations.filter (fun v => decide (v.role = RoleType.SelectExpr)))
          schema policies).2 with
      | nil => exact absurd hev hn1
      | cons a l => rfl
    simp [hn1e, he2]
  · simp only [rewrite, hne, h2, h3, h4, h5, hfe, Bool.false_eq_true, if_false]
    have hn1e : (apply_rewrite_step query
        (violations.filter (fun v => decide (v.role = RoleType.SelectExpr)))
        schema policies).2.isEmpty = false := by
      cases hev : (apply_rewrite_step query
          (violations.filter (fun v => decide (v.role = RoleType.SelectExpr)))
          schema policies).2 with
      | nil => exact absurd hev hn1
      | cons a l => rfl
    have hn2e : ((apply_rewrite_step
        (apply_rewrite_step query
          (violations.filter (fun v => decide (v.role = RoleType.SelectExpr)))
          schema policies).1
        (apply_rewrite_step query
          (violations.filter (fun v => decide (v.role = RoleType.SelectExpr)))
          schema policies).2 schema policies).2).isEmpty = false := by
      cases hev : (apply_rewrite_step
          (apply_rewrite_step query
            (violations.filter (fun v => decide (v.role = RoleType.SelectExpr)))
            schema policies).1
          (apply_rewrite_step query
            (violations.filter (fun v => decide (v.role = RoleType.SelectExpr)))
            schema policies).2 schema policies).2 with
      | nil => exact absurd hev hn2
      | cons a l => rfl
    simp [hn1e, hn2e]

/-- Witness for C4: a single AggOnly SelectExpr violation on an
already-aggregated column survives both passes and triggers the
rewrite-limit refusal. -/
theorem C4_two_pass_bound_witness :
    [aggOnlySelectViolation] ≠ []
    ∧ List.find? tier_unsalvageable [aggOnlySelectViolation] = none
    ∧ List.find? tier_aggonly_bad_agg [aggOnlySelectViolation] = none
    ∧ List.find? tier_aggarg_forbidden [aggOnlySelectViolation] = none
    ∧ List.find? tier_joinonly_select [aggOnlySelectViolation] = none
    ∧ List.filter (fun v => decide (v.role = RoleType.SelectExpr))
        [aggOnlySelectViolation] ≠ []
    ∧ rewrite avgQuery [aggOnlySelectViolation] emptySchema []
        = .refused ("Rewrite limit exceeded") :=
  ⟨by decide, by decide, by decide, by decide, by decide, by decide,
    (C4_two_pass_bound avgQuery [aggOnlySelectViolation] emptySchema []
        (by decide) (by decide) (by decide) (by decide) (by decide)
        (by decide)).2.2 (by decide) (by decide)⟩

/-- When the column already occurs inside an aggregate call in the SELECT
clause, `_wrap_with_avg` returns the query unchanged. -/
theorem wrap_with_avg_of_already_aggregated (query col_name : String)
    (h : already_aggregated_in_select query col_name = true) :
    wrap_with_avg query col_name = query := by
  unfold already_aggregated_in_select at h
  cases hm : select_from_match query.data with
  | none => simp [wrap_with_avg, hm]
  | some se =>
    rcases se with ⟨s, e⟩
    rw [hm] at h
    simp only at h
    simp [wrap_with_avg, hm, h]

/-- Counterexample to C1: `salary` already appears inside `AVG(...)` in the
SELECT clause of the query, yet the AggOnly SelectExpr violation is not
dropped — it stays in the remaining set of the pass and the call returns
`Refused("Rewrite limit exceeded")`, which C1 says can never happen. -/
theorem C1_counterexample :
    already_aggregated_in_select avgQuery (lastPart aggOnlySelectViolation.column) = true
    ∧ aggOnlySelectViolation.role = RoleType.SelectExpr
    ∧ aggOnlySelectViolation.policy = PolicyType.AggOnly
    ∧ (apply_rewrite_step avgQuery [aggOnlySelectViolation] emptySchema []).2
        = [aggOnlySelectViolation]
    ∧ rewrite avgQuery [aggOnlySelectViolation] emptySchema []
        = .refused ("Rewrite limit exceeded") :=
  ⟨by decide, rfl, rfl, by decide, by decide⟩

/-- C1 amended: when an AggOnly SelectExpr violation's column already
appears inside an aggregate-function call in the SELECT clause,
`_wrap_with_avg` leaves the text unchanged and the violation is carried
over as unresolved (not dropped); if it is the only violation the call
returns `Refused("Rewrite limit exceeded")`. -/
theorem C1_already_aggregated_carries_over (query : String) (v : Violation)
    (schema : TableSchema) (policies : Policies)
    (hrole : v.role = RoleType.SelectExpr)
    (hpol : v.policy = PolicyType.AggOnly)
    (hagg : already_aggregated_in_select query (lastPart v.column) = true) :
    apply_rewrite_step query [v] schema policies = (query, [v])
    ∧ rewrite query [v] schema policies = .refused ("Rewrite limit exceeded") := by
  have hwrap := wrap_with_avg_of_already_aggregated query (lastPart v.column) hagg
  have hstep : apply_rewrite_step query [v] schema policies = (query, [v]) := by
    simp [apply_rewrite_step, hpol, hwrap]
  refine ⟨hstep, ?_⟩
  have hne : ([v] : List Violation).isEmpty = false := rfl
  have hf1 : List.find? tier_unsalvageable [v] = none := by
    simp [List.find?, tier_unsalvageable, hrole]
  have hf2 : List.find? tier_aggonly_bad_agg [v] = none := by
    simp [List.find?, tier_aggonly_bad_agg, hrole]
  have hf3 : List.find? tier_aggarg_forbidden [v] = none := by
    simp [List.find?, tier_aggarg_forbidden, hrole]
  have hf4 : List.find? tier_joinonly_select [v] = none := by
    simp [List.find?, tier_joinonly_select, hpol]
  have hfil : List.filter (fun x => decide (x.role = RoleType.SelectExpr)) [v] = [v] := by
    simp [List.filter, hrole]
  simp [rewrite, hne, hf1, hf2, hf3, hf4, hfil, hstep]

/-- Witness for the amended C1 at the concrete already-aggregated query. -/
theorem C1_already_aggregated_carries_over_witness :
    aggOnlySelectViolation.role = RoleType.SelectExpr
    ∧ aggOnlySelectViolation.policy = PolicyType.AggOnly
    ∧ already_aggregated_in_select avgQuery (lastPart aggOnlySelectViolation.column) = true
    ∧ (apply_rewrite_step avgQuery [aggOnlySelectViolation] emptySchema []
          = (avgQuery, [aggOnlySelectViolation])
        ∧ rewrite avgQuery [aggOnlySelectViolation] emptySchema []
          = .refused ("Rewrite limit exceeded")) :=
  ⟨rfl, rfl, by decide,
    C1_already_aggregated_carries_over avgQuery aggOnlySelectViolation emptySchema []
      rfl rfl (by decide)⟩

/-- Membership through stable insertion. -/
theorem mem_stable_insert {α : Type} (le : α → α → Bool) (a x : α) (l : List α) :
    x ∈ stable_insert le a l ↔ x = a ∨ x ∈ l := by
  induction l with
  | nil => simp [stable_insert]
  | cons b l ih =>
    by_cases h : le a b
    · simp [stable_insert, h]
    · simp only [stable_insert, if_neg h, List.mem_cons, ih]
      tauto

/-- Membership through stable sorting. -/
theorem mem_stable_sort {α : Type} (le : α → α → Bool) (x : α) (l : List α) :
    x ∈ stable_sort le l ↔ x ∈ l := by
  induction l with
  | nil => simp [stable_sort]
  | cons a l ih => simp [stable_sort, mem_stable_insert, ih]

/-- Stable insertion preserves sortedness, for a total transitive
comparison. -/
theorem pairwise_stable_insert {α : Type} (le : α → α → Bool)
    (htrans : ∀ a b c, le a b = true → le b c = true → le a c = true)
    (htotal : ∀ a b, le a b = true ∨ le b a = true) (a : α) :
    ∀ l : List α, l.Pairwise (fun x y => le x y = true) →
      (stable_insert le a l).Pairwise (fun x y => le x y = true) := by
  intro l
  induction l with
  | nil => intro _; simp [stable_insert]
  | cons b l ih =>
    intro hp
    rw [List.pairwise_cons] at hp
    obtain ⟨hb, hl⟩ := hp
    by_cases h : le a b
    · rw [stable_insert, if_pos h, List.pairwise_cons]
      refine ⟨?_, List.pairwise_cons.mpr ⟨hb, hl⟩⟩
      intro x hx
      rcases List.mem_cons.mp hx with rfl | hx
      · exact h
      · exact htrans a b x h (hb x hx)
    · rw [stable_insert, if_neg h, List.pairwise_cons]
      refine ⟨?_, ih hl⟩
      intro x hx
      rcases (mem_stable_insert le a x l).mp hx with rfl | hx
      · rcases htotal x b with hab | hba
        · exact absurd hab h
        · exact hba
      · exact hb x hx

/-- Stable sorting sorts, for a total transitive comparison. -/
theorem pairwise_stable_sort {α : Type} (le : α → α → Bool)
    (htrans : ∀ a b c, le a b = true → le b c = true → le a c = true)
    (htotal : ∀ a b, le a b = true ∨ le b a = true) :
    ∀ l : List α, (stable_sort le l).Pairwise (fun x y => le x y = true) := by
  intro l
  induction l with
  | nil => simp [stable_sort]
  | cons a l ih => exact pairwise_stable_insert le htrans htotal a _ ih

/-- The head of a stable sort is a minimum of the list. -/
theorem stable_sort_head_min {α : Type} (le : α → α → Bool)
    (htrans : ∀ a b c, le a b = true → le b c = true → le a c = true)
    (htotal : ∀ a b, le a b = true ∨ le b a = true) (l : List α) (hne : l ≠ []) :
    ∃ c rest, stable_sort le l = c :: rest ∧ c ∈ l ∧ ∀ d ∈ l, le c d = true := by
  cases hs : stable_sort le l with
  | nil =>
    cases l with
    | nil => exact absurd rfl hne
    | cons a l =>
      have ha : a ∈ stable_sort le (a :: l) :=
        (mem_stable_sort le a _).mpr (List.mem_cons_self a l)
      rw [hs] at ha
      cases ha
  | cons c rest =>
    refine ⟨c, rest, rfl, ?_, ?_⟩
    · have hc : c ∈ stable_sort le l := by
        rw [hs]
        exact List.mem_cons_self c rest
      exact (mem_stable_sort le c l).mp hc
    · intro d hd
      have hdm : d ∈ stable_sort le l := (mem_stable_sort le d l).mpr hd
      rw [hs] at hdm
      rcases List.mem_cons.mp hdm with rfl | hdm
      · rcases htotal d d with h | h <;> exact h
      · have hp := pairwise_stable_sort le htrans htotal l
        rw [hs] at hp
        exact (List.pairwise_cons.mp hp).1 d hdm

/-- The `(not is_pk, col_id)` comparison is transitive. -/
theorem cand_le_trans (a b c : Bool × Nat × String) :
    cand_le a b = true → cand_le b c = true → cand_le a c = true := by
  rcases a with ⟨pa, ia, sa⟩
  rcases b with ⟨pb, ib, sb⟩
  rcases c with ⟨pc, ic, sc⟩
  simp only [cand_le, decide_eq_true_eq]
  cases pa <;> cases pb <;> cases pc <;> simp <;> omega

/-- The `(not is_pk, col_id)` comparison is total. -/
theorem cand_le_total (a b : Bool × Nat × String) :
    cand_le a b = true ∨ cand_le b a = true := by
  rcases a with ⟨pa, ia, sa⟩
  rcases b with ⟨pb, ib, sb⟩
  simp only [cand_le, decide_eq_true_eq]
  cases pa <;> cases pb <;> simp <;> omega

/-- One step of the candidate-building loop of `_find_id_column`. -/
theorem find_id_candidates_aux_cons (table_names : List String)
    (primary_keys : List Nat) (policies : Policies) (table_lower : List Char)
    (tidx0 : Int) (name0 : String) (rest : List (Int × String)) (k : Nat) :
    find_id_candidates_aux table_names primary_keys policies table_lower
        ((tidx0, name0) :: rest) k
      = (if k ≠ 0 ∧ ¬(tidx0 < 0)
            ∧ lowerData (table_names.getD tidx0.toNat emptyStr) = table_lower
            ∧ is_id_column name0 = true
            ∧ Policies.get policies
                (table_names.getD tidx0.toNat emptyStr ++ dotSep ++ name0)
                = some PolicyType.Public
          then [(decide (k ∈ primary_keys), k,
                  table_names.getD tidx0.toNat emptyStr ++ dotSep ++ name0)]
          else [])
        ++ find_id_candidates_aux table_names primary_keys policies table_lower
            rest (k + 1) := by
  by_cases h0 : k = 0 <;> by_cases h1 : tidx0 < 0 <;>
    by_cases h2 : lowerData (table_names.getD tidx0.toNat emptyStr) = table_lower <;>
    by_cases h3 : is_id_column name0 = true <;>
    by_cases h4 : Policies.get policies
        (table_names.getD tidx0.toNat emptyStr ++ dotSep ++ name0)
        = some PolicyType.Public <;>
    (try simp only [List.getD_eq_getElem?_getD] at h2 h4) <;>
    simp [find_id_candidates_aux, h0, h1, h2, h3, h4]

/-- Membership characterization for the candidate-building loop of
`_find_id_column`, at an arbitrary enumeration offset `k`. -/
theorem mem_find_id_candidates_aux (table_names : List String)
    (primary_keys : List Nat) (policies : Policies) (table_lower : List Char) :
    ∀ (l : List (Int × String)) (k : Nat) (c : Bool × Nat × String),
      c ∈ find_id_candidates_aux table_names primary_keys policies table_lower l k ↔
        ∃ j tidx name, l.get? j = some (tidx, name)
          ∧ k + j ≠ 0 ∧ ¬(tidx < 0)
          ∧ lowerData (table_names.getD tidx.toNat emptyStr) = table_lower
          ∧ is_id_column name = true
          ∧ Policies.get policies
              (table_names.getD tidx.toNat emptyStr ++ dotSep ++ name)
              = some PolicyType.Public
          ∧ c = (decide ((k + j) ∈ primary_keys), k + j,
              table_names.getD tidx.toNat emptyStr ++ dotSep ++ name) := by
  intro l
  induction l with
  | nil =>
    intro k c
    simp [find_id_candidates_aux]
  | cons hd rest ih =>
    intro k c
    rcases hd with ⟨tidx0, name0⟩
    rw [find_id_candidates_aux_cons, List.mem_append]
    constructor
    · rintro (hc | hc)
      · by_cases hcond : k ≠ 0 ∧ ¬(tidx0 < 0)
            ∧ lowerData (table_names.getD tidx0.toNat emptyStr) = table_lower
            ∧ is_id_column name0 = true
            ∧ Policies.get policies
                (table_names.getD tidx0.toNat emptyStr ++ dotSep ++ name0)
                = some PolicyType.Public
        · rw [if_pos hcond] at hc
          have hc' := List.mem_singleton.mp hc
          refine ⟨0, tidx0, name0, rfl, by simpa using hcond.1, hcond.2.1,
            hcond.2.2.1, hcond.2.2.2.1, hcond.2.2.2.2, by simpa using hc'⟩
        · rw [if_neg hcond] at hc
          cases hc
      · obtain ⟨j, tidx, name, hget, hk, hneg, hlow, hid, hpolicy, hc⟩ :=
          (ih (k + 1) c).mp hc
        refine ⟨j + 1, tidx, name, by simpa using hget, by omega, hneg, hlow, hid,
          hpolicy, ?_⟩
        have harith : k + 1 + j = k + (j + 1) := by omega
        rw [harith] at hc
        exact hc
    · rintro ⟨j, tidx, name, hget, hk, hneg, hlow, hid, hpolicy, hc⟩
      cases j with
      | zero =>
        left
        have hpair : tidx0 = tidx ∧ name0 = name := by
          have := hget
          simp at this
          exact this
        rcases hpair with ⟨rfl, rfl⟩
        rw [if_pos ⟨by simpa using hk, hneg, hlow, hid, hpolicy⟩]
        simp only [List.mem_singleton]
        simpa using hc
      | succ j' =>
        right
        refine (ih (k + 1) c).mpr ⟨j', tidx, name, by simpa using hget, by omega,
          hneg, hlow, hid, hpolicy, ?_⟩
        have harith : k + (j' + 1) = k + 1 + j' := by omega
        rw [harith] at hc
        exact hc

/-- Membership characterization for the full candidate list of
`_find_id_column`. -/
theorem mem_find_id_candidates (column : String) (schema : TableSchema)
    (policies : Policies) (c : Bool × Nat × String) :
    c ∈ find_id_candidates column schema policies ↔
      ∃ j tidx name, schema.column_names.get? j = some (tidx, name)
        ∧ j ≠ 0 ∧ ¬(tidx < 0)
        ∧ lowerData (schema.table_names.getD tidx.toNat emptyStr)
            = lowerData (firstPart column)
        ∧ is_id_column name = true
        ∧ Policies.get policies
            (schema.table_names.getD tidx.toNat emptyStr ++ dotSep ++ name)
            = some PolicyType.Public
        ∧ c = (decide (j ∈ schema.primary_keys), j,
            schema.table_names.getD tidx.toNat emptyStr ++ dotSep ++ name) := by
  unfold find_id_candidates
  rw [mem_find_id_candidates_aux]
  simp

/-- Counterexample to C2: `Student.id` is a same-table id-like column with
no policy-map entry (hence Public by the default rule), yet the replacement
search rejects it — the candidate list is empty, `_find_id_column` returns
none, and the Hidden `email` violation ends in
`Refused("Rewrite limit exceeded")` instead of being rewritten to `id`. -/
theorem C2_counterexample :
    is_id_column pat_id_exact = true
    ∧ Policies.get hiddenOnlyPolicies studentIdKey = none
    ∧ find_id_candidates hiddenEmailViolation.column studentSchema hiddenOnlyPolicies = []
    ∧ find_id_column hiddenEmailViolation.column studentSchema hiddenOnlyPolicies = none
    ∧ rewrite emailQuery [hiddenEmailViolation] studentSchema hiddenOnlyPolicies
        = .refused ("Rewrite limit exceeded") :=
  ⟨by decide, by decide, by decide, by decide, by decide⟩

/-- C2 amended: `check_violations` resolves a missing policy entry to
Public, so a missing-entry reference never yields a violation (every
violation's key has an explicit non-Public entry); the Hidden-column
replacement search does not extend this default — it accepts only columns
with an explicit Public entry, so any replacement it returns has one. -/
theorem C2_missing_entry_public_only_in_checker (refs : List ColumnRef)
    (policies : Policies) (column r : String) (schema : TableSchema) :
    (∀ v ∈ check_violations refs policies,
        Policies.get policies v.column = some v.policy
        ∧ v.policy ≠ PolicyType.Public)
    ∧ (find_id_column column schema policies = some r →
        Policies.get policies r = some PolicyType.Public) := by
  constructor
  · intro v hv
    obtain ⟨-, h1, h2⟩ := check_violations_sound refs policies v hv
    exact ⟨h1, h2⟩
  · intro hr
    unfold find_id_column at hr
    by_cases hne : (find_id_candidates column schema policies).isEmpty
    · rw [if_pos hne] at hr
      cases hr
    · rw [if_neg hne] at hr
      cases hs : stable_sort cand_le (find_id_candidates column schema policies) with
      | nil =>
        rw [hs] at hr
        cases hr
      | cons c rest =>
        rw [hs] at hr
        have hcr : c.2.2 = r := by simpa using hr
        have hcmem : c ∈ find_id_candidates column schema policies := by
          have hcs : c ∈ stable_sort cand_le (find_id_candidates column schema policies) := by
            rw [hs]
            exact List.mem_cons_self c rest
          exact (mem_stable_sort _ _ _).mp hcs
        obtain ⟨j, tidx, name, -, -, -, -, -, hpolicy, hc⟩ :=
          (mem_find_id_candidates column schema policies c).mp hcmem
        rw [← hcr, hc]
        exact hpolicy

/-- Witness for the amended C2: `T.name` (explicit Hidden entry) violates
and carries its mapped policy; the replacement the search returns, `T.id`,
has an explicit Public entry. -/
theorem C2_missing_entry_public_only_in_checker_witness :
    (⟨"T.name", RoleType.SelectExpr, PolicyType.Hidden, 0⟩ : Violation)
        ∈ check_violations [tNameRef] twoIdPolicies
    ∧ find_id_column tNameCol twoIdSchema twoIdPolicies = some tIdKey
    ∧ (Policies.get twoIdPolicies
          (⟨"T.name", RoleType.SelectExpr, PolicyType.Hidden, 0⟩ : Violation).column
          = some PolicyType.Hidden
        ∧ Policies.get twoIdPolicies tIdKey = some PolicyType.Public) :=
  ⟨by decide, by decide,
    ⟨((C2_missing_entry_public_only_in_checker [tNameRef] twoIdPolicies tNameCol
          tIdKey twoIdSchema).1 _ (by decide)).1,
      (C2_missing_entry_public_only_in_checker [tNameRef] twoIdPolicies tNameCol
          tIdKey twoIdSchema).2 (by decide)⟩⟩

/-- The id-like naming test of the code agrees with the spec's pattern
list. -/
theorem is_id_column_iff (name : String) :
    is_id_column name = true ↔ IsIdLike name := by
  simp only [is_id_column, IsIdLike, Bool.or_eq_true, decide_eq_true_eq]
  tauto

/-- Counterexample to C7: under the missing-entry-means-Public rule,
`Student.id` (schema column 1, owned by the searched table `Student`, name
matching the exact-`id` pattern) is a same-table Public-policy column — its
absent map entry resolves to Public — yet the candidate list built by
`_find_id_column` for the Hidden `Student.email` violation is empty and no
replacement is returned: the search does not consider default-Public
columns, only explicit Public entries. -/
theorem C7_counterexample :
    (studentSchema.column_names.get? 1 = some (0, pat_id_exact)
      ∧ studentSchema.table_names.getD 0 emptyStr
          = firstPart hiddenEmailViolation.column
      ∧ is_id_column pat_id_exact = true
      ∧ Policies.get hiddenOnlyPolicies studentIdKey = none
      ∧ (Policies.get hiddenOnlyPolicies studentIdKey).getD PolicyType.Public
          = PolicyType.Public)
    ∧ find_id_candidates hiddenEmailViolation.column studentSchema
        hiddenOnlyPolicies = []
    ∧ find_id_column hiddenEmailViolation.column studentSchema
        hiddenOnlyPolicies = none :=
  ⟨⟨by decide, by decide, by decide, by decide, by decide⟩, by decide, by decide⟩

/-- C7, amended: the Hidden-column replacement search considers exactly the
same-table (case-insensitive) non-wildcard columns whose name matches the
id-like patterns and which carry an explicit Public policy-map entry — a
missing entry, although resolved as Public by the checker, is not accepted;
among the candidates it deterministically returns a primary-key candidate
whenever one exists, breaking remaining ties by the smallest schema column
index; with no candidate it returns none. -/
theorem C7_find_id_column_spec (column : String) (schema : TableSchema)
    (policies : Policies) :
    (∀ c, c ∈ find_id_candidates column schema policies ↔
        (∃ j tidx name, schema.column_names.get? j = some (tidx, name)
          ∧ j ≠ 0 ∧ ¬(tidx < 0)
          ∧ lowerData (schema.table_names.getD tidx.toNat emptyStr)
              = lowerData (firstPart column)
          ∧ IsIdLike name
          ∧ Policies.get policies
              (schema.table_names.getD tidx.toNat emptyStr ++ dotSep ++ name)
              = some PolicyType.Public
          ∧ c = (decide (j ∈ schema.primary_keys), j,
              schema.table_names.getD tidx.toNat emptyStr ++ dotSep ++ name)))
    ∧ (find_id_candidates column schema policies = [] →
        find_id_column column schema policies = none)
    ∧ (find_id_candidates column schema policies ≠ [] →
        ∃ c ∈ find_id_candidates column schema policies,
          find_id_column column schema policies = some c.2.2
          ∧ ((∃ d ∈ find_id_candidates column schema policies, d.1 = true) →
              c.1 = true)
          ∧ (∀ d ∈ find_id_candidates column schema policies,
              d.1 = c.1 → c.2.1 ≤ d.2.1)) := by
  refine ⟨?_, ?_, ?_⟩
  · intro c
    rw [mem_find_id_candidates]
    constructor
    · rintro ⟨j, tidx, name, h1, h2, h3, h4, h5, h6, h7⟩
      exact ⟨j, tidx, name, h1, h2, h3, h4, (is_id_column_iff name).mp h5, h6, h7⟩
    · rintro ⟨j, tidx, name, h1, h2, h3, h4, h5, h6, h7⟩
      exact ⟨j, tidx, name, h1, h2, h3, h4, (is_id_column_iff name).mpr h5, h6, h7⟩
  · intro hnil
    unfold find_id_column
    rw [hnil]
    rfl
  · intro hne
    obtain ⟨c, rest, hs, hcmem, hmin⟩ :=
      stable_sort_head_min cand_le cand_le_trans cand_le_total
        (find_id_candidates column schema policies) hne
    have hie : (find_id_candidates column schema policies).isEmpty = false := by
      cases hl : find_id_candidates column schema policies with
      | nil => exact absurd hl hne
      | cons a l => rfl
    refine ⟨c, hcmem, ?_, ?_, ?_⟩
    · unfold find_id_column
      rw [if_neg (by rw [hie]; exact Bool.false_ne_true), hs]
    · rintro ⟨d, hd, hdpk⟩
      have hcd := hmin d hd
      simp only [cand_le, decide_eq_true_eq] at hcd
      rcases hcd with ⟨hc1, hd1⟩ | ⟨heq, -⟩
      · rw [hdpk] at hd1
        simp at hd1
      · rw [heq]
        exact hdpk
    · intro d hd hdc
      have hcd := hmin d hd
      simp only [cand_le, decide_eq_true_eq] at hcd
      rcases hcd with ⟨hc1, hd1⟩ | ⟨-, hle⟩
      · rw [hc1] at hdc
        rw [hdc] at hd1
        simp at hd1
      · exact hle

/-- Witness for C7 at `twoIdSchema`: both `T.row_id` (column 1, not a key)
and `T.id` (column 2, primary key) are candidates and the primary key is
selected. -/
theorem C7_find_id_column_spec_witness :
    find_id_candidates tNameCol twoIdSchema twoIdPolicies ≠ []
    ∧ ∃ c ∈ find_id_candidates tNameCol twoIdSchema twoIdPolicies,
        find_id_column tNameCol twoIdSchema twoIdPolicies = some c.2.2
        ∧ ((∃ d ∈ find_id_candidates tNameCol twoIdSchema twoIdPolicies,
              d.1 = true) → c.1 = true)
        ∧ (∀ d ∈ find_id_candidates tNameCol twoIdSchema twoIdPolicies,
            d.1 = c.1 → c.2.1 ≤ d.2.1) :=
  ⟨by decide,
    (C7_find_id_column_spec tNameCol twoIdSchema twoIdPolicies).2.2 (by decide)⟩

/-- Sub-AST bound: a subquery table unit is smaller than its list. -/
theorem sizeOf_lt_of_mem_table_units {q : SqlAst} {tus : List TableUnit}
    (h : TableUnit.sub q ∈ tus) : sizeOf q < sizeOf tus := by
  have h1 := List.sizeOf_lt_of_mem h
  have h2 : sizeOf (TableUnit.sub q) = 1 + sizeOf q := by simp
  omega

/-- The per-item wildcard test of `has_select_star`, characterized. -/
theorem star_item_iff (item : Nat × ValUnit) :
    star_item item = true ↔
      ∃ cu, item.2.col_unit1 = some cu ∧ cu.agg_id = 0 ∧ cu.col_id = 0
        ∧ item.1 = 0 := by
  cases hcu : item.2.col_unit1 with
  | none => simp [star_item, hcu]
  | some cu =>
    simp only [star_item, hcu, Bool.and_eq_true, decide_eq_true_eq,
      Option.some.injEq]
    constructor
    · rintro ⟨⟨hcol, hagg⟩, houter⟩
      exact ⟨cu, rfl, hagg, hcol, houter⟩
    · rintro ⟨cu', hcu', hagg, hcol, houter⟩
      subst hcu'
      exact ⟨⟨hcol, hagg⟩, houter⟩

/-- The FROM-subquery scan of `has_select_star`, characterized in terms of
membership. -/
theorem star_table_units_iff (l : List TableUnit) :
    star_table_units l = true ↔
      ∃ q, TableUnit.sub q ∈ l ∧ has_select_star q = true := by
  induction l with
  | nil => simp [star_table_units]
  | cons hd rest ih =>
    cases hd with
    | table i =>
      simp only [star_table_units, ih]
      constructor
      · rintro ⟨q, hq, hs⟩
        exact ⟨q, List.mem_cons_of_mem _ hq, hs⟩
      · rintro ⟨q, hq, hs⟩
        rcases List.mem_cons.mp hq with h | h
        · exact TableUnit.noConfusion h
        · exact ⟨q, h, hs⟩
    | sub q0 =>
      simp only [star_table_units, Bool.or_eq_true, ih]
      constructor
      · rintro (h | ⟨q, hq, hs⟩)
        · exact ⟨q0, List.mem_cons_self _ _, h⟩
        · exact ⟨q, List.mem_cons_of_mem _ hq, hs⟩
      · rintro ⟨q, hq, hs⟩
        rcases List.mem_cons.mp hq with h | h
        · injection h with h
          subst h
          exact Or.inl hs
        · exact Or.inr ⟨q, h, hs⟩

/-- The wildcard-select detector returns true exactly on the queries
satisfying the specification predicate `HasStarSelect`. -/
theorem has_select_star_iff (q : SqlAst) :
    has_select_star q = true ↔ HasStarSelect q := by
  rcases q with ⟨d, items, tus, fc, wc, qi, qu, qe⟩
  simp only [has_select_star, Bool.or_eq_true]
  constructor
  · rintro ((((h | h) | h) | h) | h)
    · obtain ⟨item, hmem, hitem⟩ := List.any_eq_true.mp h
      obtain ⟨cu, hcu, hagg, hcol, houter⟩ := (star_item_iff item).mp hitem
      exact HasStarSelect.here item cu hmem houter hcu hagg hcol
    · obtain ⟨q', hmem, hs⟩ := (star_table_units_iff tus).mp h
      exact HasStarSelect.from_sub q' hmem ((has_select_star_iff q').mp hs)
    · cases qi with
      | none => simp [star_opt] at h
      | some q' =>
        exact HasStarSelect.in_intersect q'
          ((has_select_star_iff q').mp (by simpa [star_opt] using h))
    · cases qu with
      | none => simp [star_opt] at h
      | some q' =>
        exact HasStarSelect.in_union q'
          ((has_select_star_iff q').mp (by simpa [star_opt] using h))
    · cases qe with
      | none => simp [star_opt] at h
      | some q' =>
        exact HasStarSelect.in_except q'
          ((has_select_star_iff q').mp (by simpa [star_opt] using h))
  · intro h
    cases h with
    | here item cu hmem houter hcu hagg hcol =>
      exact Or.inl (Or.inl (Or.inl (Or.inl (List.any_eq_true.mpr
        ⟨item, hmem, (star_item_iff item).mpr ⟨cu, hcu, hagg, hcol, houter⟩⟩))))
    | from_sub q' hmem hstar =>
      exact Or.inl (Or.inl (Or.inl (Or.inr ((star_table_units_iff tus).mpr
        ⟨q', hmem, (has_select_star_iff q').mpr hstar⟩))))
    | in_intersect q' hstar =>
      exact Or.inl (Or.inl (Or.inr
        (by simpa [star_opt] using (has_select_star_iff q').mpr hstar)))
    | in_union q' hstar =>
      exact Or.inl (Or.inr
        (by simpa [star_opt] using (has_select_star_iff q').mpr hstar))
    | in_except q' hstar =>
      exact Or.inr (by simpa [star_opt] using (has_select_star_iff q').mpr hstar)
termination_by sizeOf q
decreasing_by
  all_goals simp_wf
  all_goals try subst_vars
  all_goals first
    | (have hlt := sizeOf_lt_of_mem_table_units hmem
       omega)
    | omega

/-- C8: a column unit with the wildcard index 0 contributes no reference in
any extraction position; the wildcard-select detector returns true exactly
on queries that (directly, in a FROM subquery, or in a set-operation
branch) have a SELECT item with outer aggregate none whose column unit has
aggregate none and the wildcard index; and an aggregated wildcard item such
as `COUNT(*)` alone makes the detector report false. -/
theorem C8_wildcard_excluded_and_detector :
    (∀ (cu : ColUnit) (schema : TableSchema) (outer_agg_id : Nat) (role : RoleType),
      cu.col_id = 0 →
        extract_select_col_unit (some cu) schema outer_agg_id = []
        ∧ extract_cond_col_unit (some cu) schema role = []
        ∧ extract_cond_val (.col cu) schema role = [])
    ∧ (∀ q : SqlAst, has_select_star q = true ↔ HasStarSelect q)
    ∧ (∀ (d : Bool) (n : Nat) (vu : ValUnit),
        n ≠ 0 →
          has_select_star (.mk d [(n, vu)] [] [] [] none none none) = false) := by
  refine ⟨?_, has_select_star_iff, ?_⟩
  · intro cu schema outer_agg_id role h0
    refine ⟨?_, ?_, ?_⟩ <;>
      simp [extract_select_col_unit, extract_cond_col_unit, extract_cond_val, h0]
  · intro d n vu hn
    simp only [has_select_star, star_table_units, star_opt, List.any_cons,
      List.any_nil, Bool.or_false]
    cases hcu : vu.col_unit1 with
    | none => simp [star_item, hcu]
    | some cu => simp [star_item, hcu, hn]

/-- Witness for C8: a `COUNT(*)` column unit contributes nothing, the
detector characterization instantiates at the `SELECT *` fixture, and a
lone `COUNT(*)` item yields false. -/
theorem C8_wildcard_excluded_and_detector_witness :
    ((⟨3, 0, false⟩ : ColUnit).col_id = 0
      ∧ (extract_select_col_unit (some ⟨3, 0, false⟩) emptySchema 0 = []
          ∧ extract_cond_col_unit (some ⟨3, 0, false⟩) emptySchema RoleType.WherePred = []
          ∧ extract_cond_val (.col ⟨3, 0, false⟩) emptySchema RoleType.WherePred = []))
    ∧ (has_select_star starQuery = true ↔ HasStarSelect starQuery)
    ∧ ((3 : Nat) ≠ 0
        ∧ has_select_star
            (.mk false [(3, ⟨0, some ⟨0, 0, false⟩, none⟩)] [] [] [] none none none)
            = false) :=
  ⟨⟨rfl, (C8_wildcard_excluded_and_detector).1 ⟨3, 0, false⟩ emptySchema 0
      RoleType.WherePred rfl⟩,
    (C8_wildcard_excluded_and_detector).2.1 starQuery,
    ⟨by decide, (C8_wildcard_excluded_and_detector).2.2 false 3
      ⟨0, some ⟨0, 0, false⟩, none⟩ (by decide)⟩⟩

end PolicySql
